import Mathlib

/-!
Shallow embedding of the transformation-and-classification engine of
`src/app.py`: a 2D affine change-of-basis explorer. The script reads eight
real scalars (point, two basis vectors, origin offset), forms the basis
matrix with the basis vectors as columns, checks the determinant against
`1e-10`, and — only when non-degenerate — shifts the point by the origin,
solves the 2x2 linear system with `np.linalg.solve`, and renders the
results together with a plot whose origin-shift arrow is drawn only when
`np.linalg.norm(origin) > 0.1`. Python floats are idealised as real
numbers; `np.linalg` calls are modelled exactly (their 2x2 specialisations
are closed-form), with the singular-matrix error of `np.linalg.solve`
modelled as the `.error` branch of `Except`.
-/

namespace App

/-- The engine's scalar inputs, named as the script's sidebar variables:
point `(vx, vy)` (lines 18-19), basis vector 1 `(b1x, b1y)` (lines 23-24),
basis vector 2 `(b2x, b2y)` (lines 26-27), new-origin offset `(c1, c2)`
(lines 31-32 of src/app.py). -/
structure Inputs where
  vx : ℝ
  vy : ℝ
  b1x : ℝ
  b1y : ℝ
  b2x : ℝ
  b2y : ℝ
  c1 : ℝ
  c2 : ℝ

/-- The script's `basis_matrix = np.array([[b1x, b2x], [b1y, b2y]])`
(src/app.py lines 37-38): basis vector 1 is the first column, basis
vector 2 the second. -/
def basis_matrix (i : Inputs) : Matrix (Fin 2) (Fin 2) ℝ :=
  !![i.b1x, i.b2x; i.b1y, i.b2y]

/-- The script's `det = np.linalg.det(basis_matrix)` (line 41), the exact
determinant of the 2x2 basis matrix. -/
noncomputable def det (i : Inputs) : ℝ :=
  (basis_matrix i).det

/-- The script's `dot_prod = np.dot([b1x, b1y], [b2x, b2y])` (line 45). -/
noncomputable def dot_prod (b1x b1y b2x b2y : ℝ) : ℝ :=
  b1x * b2x + b1y * b2y

/-- The script's `is_orthogonal = abs(dot_prod) < 1e-5` (line 46), computed
from the four basis scalars before the degeneracy branch. -/
noncomputable def is_orthogonal (b1x b1y b2x b2y : ℝ) : Bool :=
  if |dot_prod b1x b1y b2x b2y| < 1e-5 then true else false

/-- The script's `v_relative = v_global - origin_pos` (line 54), assigned
inside the non-degenerate branch only. -/
noncomputable def v_relative (i : Inputs) : ℝ × ℝ :=
  (i.vx - i.c1, i.vy - i.c2)

/-- Models `np.linalg.solve(M, s)` for a 2x2 real system (line 58): it
raises `LinAlgError` exactly on a singular matrix — modelled as the
`.error ()` branch — and otherwise returns the unique solution of
`M · x = s`, which over the reals is the closed adjugate/det form. The
lemmas `np_linalg_solve_solves` and `np_linalg_solve_unique` below prove
this value is indeed the one solution of the system. -/
noncomputable def np_linalg_solve (M : Matrix (Fin 2) (Fin 2) ℝ) (s : ℝ × ℝ) :
    Except Unit (ℝ × ℝ) :=
  if M.det = 0 then .error ()
  else .ok ((s.1 * M 1 1 - s.2 * M 0 1) / M.det, (s.2 * M 0 0 - s.1 * M 1 0) / M.det)

/-- The value `np.linalg.solve(basis_matrix, v_relative)` returns when the
matrix is nonsingular, written out with the entries of `basis_matrix`
(the script binds it as `v_new_coords`, line 58). -/
noncomputable def v_new_coords (i : Inputs) : ℝ × ℝ :=
  (((v_relative i).1 * i.b2y - (v_relative i).2 * i.b2x) / det i,
   ((v_relative i).2 * i.b1x - (v_relative i).1 * i.b1y) / det i)

/-- The script's `np.linalg.norm` of a 2-vector. -/
noncomputable def np_linalg_norm (x y : ℝ) : ℝ :=
  Real.sqrt (x ^ 2 + y ^ 2)

/-- The guard of the visualization's origin-shift arrow,
`np.linalg.norm(origin_pos) > 0.1` (line 112): the arrow and the
"New Origin" label are drawn exactly when it holds. -/
noncomputable def origin_arrow_shown (c1 c2 : ℝ) : Bool :=
  if np_linalg_norm c1 c2 > 0.1 then true else false

/-- One evaluation's output, the spec's `TransformResult` model populated
from what the script computes in each branch of the `abs(det) < 1e-10`
test (line 48):
* `degenerate` — the script took the error branch (line 49);
* `isOrthogonal` — `abs(dot_prod) < 1e-5`, computed before the branch
  (line 46), so it has a value in both branches;
* `shifted` — `v_relative`, assigned only in the non-degenerate branch
  (line 54), so `none` when degenerate;
* `newCoords` — `v_new_coords` (line 58), likewise only when
  non-degenerate;
* `originShiftShown` — whether the plot drew the origin-shift arrow
  (line 112); the plot exists only in the non-degenerate branch;
* `rotation` — an angle in degrees together with the four entries of a
  2x2 matrix. The script computes no rotation angle and no rotation
  matrix in any branch (when skewed it prints that the standard rotation
  matrix does not apply, line 73, and when orthogonal it only prints the
  flag, line 70), so this field is `none` for every input. -/
structure TransformResult where
  degenerate : Bool
  isOrthogonal : Bool
  shifted : Option (ℝ × ℝ)
  newCoords : Option (ℝ × ℝ)
  originShiftShown : Option Bool
  rotation : Option (ℝ × ℝ × ℝ × ℝ × ℝ)

/-- The engine: the script's calculation section (lines 35-58) plus the
origin-arrow guard of its visualization (line 112), run on one input
tuple. A `LinAlgError` escaping `np.linalg.solve` would be the `.error`
outcome; every other path yields `.ok`. -/
noncomputable def transform (i : Inputs) : Except Unit TransformResult :=
  if |det i| < 1e-10 then
    .ok { degenerate := true
          isOrthogonal := is_orthogonal i.b1x i.b1y i.b2x i.b2y
          shifted := none
          newCoords := none
          originShiftShown := none
          rotation := none }
  else
    match np_linalg_solve (basis_matrix i) (v_relative i) with
    | .error _ => .error ()
    | .ok c =>
      .ok { degenerate := false
            isOrthogonal := is_orthogonal i.b1x i.b1y i.b2x i.b2y
            shifted := some (v_relative i)
            newCoords := some c
            originShiftShown := some (origin_arrow_shown i.c1 i.c2)
            rotation := none }

/-- The Streamlit script reruns from the top on every input change and
recomputes each value from the current sidebar inputs; no value of an
earlier run is read. Modelled by a rerun that receives the previous run's
output and, like the script, never uses it. -/
noncomputable def rerun (prev : Option (Except Unit TransformResult))
    (i : Inputs) : Except Unit TransformResult :=
  transform i

/-- Modelled from the spec: the centeredness classification
`isCentered = sqrt(originX^2 + originY^2) < 1e-5` of its Step 5. The
script computes no such flag; this definition follows the spec's words so
the script's actual behaviour can be compared against it. -/
noncomputable def spec_isCentered (c1 c2 : ℝ) : Prop :=
  Real.sqrt (c1 ^ 2 + c2 ^ 2) < 1e-5

/-! Basic facts about the embedded definitions. -/

theorem det_eq (i : Inputs) : det i = i.b1x * i.b2y - i.b2x * i.b1y := by
  simp [det, basis_matrix, Matrix.det_fin_two_of]

theorem basis_matrix_col0 (i : Inputs) (j : Fin 2) :
    basis_matrix i j 0 = ![i.b1x, i.b1y] j := by
  fin_cases j <;> simp [basis_matrix]

theorem basis_matrix_col1 (i : Inputs) (j : Fin 2) :
    basis_matrix i j 1 = ![i.b2x, i.b2y] j := by
  fin_cases j <;> simp [basis_matrix]

theorem is_orthogonal_true_iff (b1x b1y b2x b2y : ℝ) :
    is_orthogonal b1x b1y b2x b2y = true ↔ |b1x * b2x + b1y * b2y| < 1e-5 := by
  by_cases h : |b1x * b2x + b1y * b2y| < 1e-5 <;>
    simp [is_orthogonal, dot_prod, h]

theorem mulVec_fin_two (M : Matrix (Fin 2) (Fin 2) ℝ) (x y : ℝ) :
    M.mulVec ![x, y] = ![M 0 0 * x + M 0 1 * y, M 1 0 * x + M 1 1 * y] := by
  funext j
  fin_cases j <;>
    simp [Matrix.mulVec, Matrix.dotProduct, Fin.sum_univ_two]

/-- On a nonsingular matrix, the modelled `np.linalg.solve` succeeds and
its value solves the system. -/
theorem np_linalg_solve_solves (M : Matrix (Fin 2) (Fin 2) ℝ) (s : ℝ × ℝ)
    (h : M.det ≠ 0) :
    ∃ c, np_linalg_solve M s = .ok c ∧ M.mulVec ![c.1, c.2] = ![s.1, s.2] := by
  have hdet : M 0 0 * M 1 1 - M 0 1 * M 1 0 ≠ 0 := by
    rwa [Matrix.det_fin_two] at h
  refine ⟨_, by rw [np_linalg_solve, if_neg h], ?_⟩
  rw [mulVec_fin_two, Matrix.det_fin_two]
  funext j
  fin_cases j <;>
    (simp only [Matrix.cons_val_zero, Matrix.cons_val_one, Matrix.head_cons]
     field_simp
     ring)

/-- The system a nonsingular matrix defines has at most one solution, so
the closed form used in the model is THE value `np.linalg.solve` returns. -/
theorem np_linalg_solve_unique (M : Matrix (Fin 2) (Fin 2) ℝ) (s : ℝ × ℝ)
    (h : M.det ≠ 0) (c c' : ℝ × ℝ)
    (hc : M.mulVec ![c.1, c.2] = ![s.1, s.2])
    (hc' : M.mulVec ![c'.1, c'.2] = ![s.1, s.2]) : c = c' := by
  have hdet : M 0 0 * M 1 1 - M 0 1 * M 1 0 ≠ 0 := by
    rwa [Matrix.det_fin_two] at h
  rw [mulVec_fin_two] at hc hc'
  have h0 := congrFun (hc.trans hc'.symm) 0
  have h1 := congrFun (hc.trans hc'.symm) 1
  simp only [Matrix.cons_val_zero, Matrix.cons_val_one, Matrix.head_cons] at h0 h1
  have hu : (M 0 0 * M 1 1 - M 0 1 * M 1 0) * (c.1 - c'.1) = 0 := by
    linear_combination M 1 1 * h0 - M 0 1 * h1
  have hv : (M 0 0 * M 1 1 - M 0 1 * M 1 0) * (c.2 - c'.2) = 0 := by
    linear_combination M 0 0 * h1 - M 1 0 * h0
  have hx : c.1 - c'.1 = 0 := (mul_eq_zero.mp hu).resolve_left hdet
  have hy : c.2 - c'.2 = 0 := (mul_eq_zero.mp hv).resolve_left hdet
  exact Prod.ext (by linarith) (by linarith)

theorem det_ne_zero_of_guard (i : Inputs) (h : ¬ |det i| < 1e-10) :
    (basis_matrix i).det ≠ 0 := by
  intro h0
  apply h
  have : det i = 0 := h0
  rw [this]
  norm_num

/-- The degenerate branch of the script: only the error message is
produced; the flags computed before the branch keep their values. -/
theorem transform_deg (i : Inputs) (h : |det i| < 1e-10) :
    transform i = .ok { degenerate := true
                        isOrthogonal := is_orthogonal i.b1x i.b1y i.b2x i.b2y
                        shifted := none
                        newCoords := none
                        originShiftShown := none
                        rotation := none } := by
  rw [transform, if_pos h]

/-- The non-degenerate branch of the script: the shift, the solve and the
visualization all happen, and the solve returns the closed-form solution. -/
theorem transform_nondeg (i : Inputs) (h : ¬ |det i| < 1e-10) :
    transform i = .ok { degenerate := false
                        isOrthogonal := is_orthogonal i.b1x i.b1y i.b2x i.b2y
                        shifted := some (v_relative i)
                        newCoords := some (v_new_coords i)
                        originShiftShown := some (origin_arrow_shown i.c1 i.c2)
                        rotation := none } := by
  have hd : (basis_matrix i).det ≠ 0 := det_ne_zero_of_guard i h
  rw [transform, if_neg h, np_linalg_solve, if_neg hd]
  have hM : ((v_relative i).1 * basis_matrix i 1 1 - (v_relative i).2 * basis_matrix i 0 1) /
        (basis_matrix i).det = (v_new_coords i).1 ∧
      ((v_relative i).2 * basis_matrix i 0 0 - (v_relative i).1 * basis_matrix i 1 0) /
        (basis_matrix i).det = (v_new_coords i).2 := by
    constructor <;> simp [basis_matrix, v_new_coords, det]
  rw [hM.1, hM.2]

theorem origin_arrow_shown_true_iff (c1 c2 : ℝ) :
    origin_arrow_shown c1 c2 = true ↔ 0.1 < Real.sqrt (c1 ^ 2 + c2 ^ 2) := by
  by_cases h : np_linalg_norm c1 c2 > 0.1 <;>
    simp [origin_arrow_shown, h] <;>
    simpa [np_linalg_norm] using h

/-! The claims. -/

/-- C1: the engine forms the 2x2 basis matrix with basis vector 1 as the
first column and basis vector 2 as the second, its determinant is
`b1x*b2y - b2x*b1y`, the result is degenerate exactly when
`|det| < 1e-10`, a degenerate result carries no coordinate conversion,
and basis vectors `(2,0)`, `(4,0)` are degenerate regardless of the other
inputs. -/
theorem C1_degeneracy_classification :
    (∀ i : Inputs, det i = i.b1x * i.b2y - i.b2x * i.b1y) ∧
    (∀ i : Inputs, ∃ r, transform i = .ok r ∧
      (r.degenerate = true ↔ |i.b1x * i.b2y - i.b2x * i.b1y| < 1e-10) ∧
      (r.degenerate = true → r.newCoords = none)) ∧
    (∀ vx vy c1 c2 : ℝ, ∃ r,
      transform ⟨vx, vy, 2, 0, 4, 0, c1, c2⟩ = .ok r ∧ r.degenerate = true) := by
  refine ⟨det_eq, ?_, ?_⟩
  · intro i
    by_cases h : |det i| < 1e-10
    · exact ⟨_, transform_deg i h, by simpa [det_eq] using h, fun _ => rfl⟩
    · have h' : ¬ |i.b1x * i.b2y - i.b2x * i.b1y| < 1e-10 := by
        rwa [det_eq] at h
      exact ⟨_, transform_nondeg i h, by simp [h'], by simp⟩
  · intro vx vy c1 c2
    have h : |det (⟨vx, vy, 2, 0, 4, 0, c1, c2⟩ : Inputs)| < 1e-10 := by
      rw [det_eq]
      norm_num
    exact ⟨_, transform_deg _ h, rfl⟩

/-- C2: whenever `|det| ≥ 1e-10` the engine's new coordinates are
produced, solve `basis_matrix · newCoords = shiftedVector` exactly, and
equal the Cramer's-rule solution. -/
theorem C2_round_trip (i : Inputs)
    (h : 1e-10 ≤ |i.b1x * i.b2y - i.b2x * i.b1y|) :
    ∃ r c, transform i = .ok r ∧ r.newCoords = some c ∧
      (basis_matrix i).mulVec ![c.1, c.2] = ![i.vx - i.c1, i.vy - i.c2] ∧
      c.1 = ((i.vx - i.c1) * i.b2y - (i.vy - i.c2) * i.b2x) /
          (i.b1x * i.b2y - i.b2x * i.b1y) ∧
      c.2 = ((i.vy - i.c2) * i.b1x - (i.vx - i.c1) * i.b1y) /
          (i.b1x * i.b2y - i.b2x * i.b1y) := by
  have hg : ¬ |det i| < 1e-10 := by
    rw [det_eq]
    linarith
  have hdf : i.b1x * i.b2y - i.b2x * i.b1y ≠ 0 := by
    intro h0
    rw [h0] at h
    norm_num at h
  refine ⟨_, v_new_coords i, transform_nondeg i hg, rfl, ?_, ?_, ?_⟩
  · rw [mulVec_fin_two]
    funext j
    fin_cases j <;>
      (simp only [basis_matrix, v_new_coords, v_relative, det, Matrix.det_fin_two_of,
         Matrix.cons_val_zero, Matrix.cons_val_one, Matrix.head_cons, Matrix.of_apply,
         Matrix.cons_val', Matrix.head_fin_const, Fin.isValue]
       field_simp
       ring)
  · simp [v_new_coords, v_relative, det_eq]
  · simp [v_new_coords, v_relative, det_eq]

/-- C2 witness: the identity-basis instance, point (2,1), basis (1,0) and
(0,1), origin (0,0). -/
theorem C2_round_trip_witness :
    ∃ r c, transform ⟨2, 1, 1, 0, 0, 1, 0, 0⟩ = .ok r ∧ r.newCoords = some c ∧
      (basis_matrix ⟨2, 1, 1, 0, 0, 1, 0, 0⟩).mulVec ![c.1, c.2] =
        ![(2 : ℝ) - 0, (1 : ℝ) - 0] ∧
      c.1 = (((2 : ℝ) - 0) * 1 - ((1 : ℝ) - 0) * 0) / ((1 : ℝ) * 1 - 0 * 0) ∧
      c.2 = (((1 : ℝ) - 0) * 1 - ((2 : ℝ) - 0) * 0) / ((1 : ℝ) * 1 - 0 * 0) :=
  C2_round_trip ⟨2, 1, 1, 0, 0, 1, 0, 0⟩ (by norm_num)

theorem is_orthogonal_false_iff (b1x b1y b2x b2y : ℝ) :
    is_orthogonal b1x b1y b2x b2y = false ↔ ¬ |b1x * b2x + b1y * b2y| < 1e-5 := by
  by_cases h : |b1x * b2x + b1y * b2y| < 1e-5 <;> simp [is_orthogonal, dot_prod, h]

theorem origin_arrow_shown_eq_false (c1 c2 : ℝ)
    (h : Real.sqrt (c1 ^ 2 + c2 ^ 2) ≤ 0.1) : origin_arrow_shown c1 c2 = false := by
  rw [origin_arrow_shown, if_neg]
  simpa [np_linalg_norm] using not_lt.mpr h

/-- C3 counterexample: at basis `(1,0)`, `(0,1)` (the spec's rotation
scenario at angle 0) with origin `(0,0)`, the basis is non-degenerate and
orthogonal and the origin is centered by the spec's own formula, yet the
engine's result carries no rotation data, so no rotation with angle
`atan2(b1y, b1x)` is included. -/
theorem C3_no_rotation_counterexample :
    ∃ r, transform ⟨1, 1, 1, 0, 0, 1, 0, 0⟩ = .ok r ∧
      r.degenerate = false ∧ r.isOrthogonal = true ∧ spec_isCentered 0 0 ∧
      r.rotation = none := by
  have hg : ¬ |det ⟨1, 1, 1, 0, 0, 1, 0, 0⟩| < 1e-10 := by
    rw [det_eq]
    norm_num
  refine ⟨_, transform_nondeg _ hg, rfl, ?_, ?_, rfl⟩
  · rw [is_orthogonal_true_iff]
    norm_num
  · rw [spec_isCentered]
    have h0 : (0 : ℝ) ^ 2 + (0 : ℝ) ^ 2 = 0 := by norm_num
    rw [h0, Real.sqrt_zero]
    norm_num

/-- C3 amended: for basis vectors `(cos t, sin t)`, `(−sin t, cos t)` with
origin `(0,0)` the engine reports a non-degenerate basis with
`isOrthogonal = true`, but its result includes no rotation data: the
script computes no rotation angle and no rotation matrix for any input. -/
theorem C3_orthogonal_without_rotation (px py t : ℝ) :
    ∃ r, transform ⟨px, py, Real.cos t, Real.sin t, -Real.sin t, Real.cos t, 0, 0⟩ =
        .ok r ∧
      r.degenerate = false ∧ r.isOrthogonal = true ∧ r.rotation = none := by
  have hdet : det ⟨px, py, Real.cos t, Real.sin t, -Real.sin t, Real.cos t, 0, 0⟩ = 1 := by
    rw [det_eq]
    show Real.cos t * Real.cos t - -Real.sin t * Real.sin t = 1
    linear_combination Real.sin_sq_add_cos_sq t
  have hg : ¬ |det ⟨px, py, Real.cos t, Real.sin t, -Real.sin t, Real.cos t, 0, 0⟩| < 1e-10 := by
    rw [hdet]
    norm_num
  have horth : is_orthogonal (Real.cos t) (Real.sin t) (-Real.sin t) (Real.cos t) = true := by
    rw [is_orthogonal_true_iff]
    have h0 : Real.cos t * -Real.sin t + Real.sin t * Real.cos t = 0 := by ring
    rw [h0]
    norm_num
  exact ⟨_, transform_nondeg _ hg, rfl, horth, rfl⟩

/-- C4 counterexample: at origin `(0.0001, 0)` the spec's centeredness
formula says the frame is not centered, but the engine's only
centeredness-sensitive output — the origin-shift arrow guard — treats it
exactly like a centered origin (no arrow drawn), because the code's
threshold is `0.1`, not `1e-5`. -/
theorem C4_centeredness_counterexample :
    ∃ r, transform ⟨0, 0, 1, 0, 0, 1, 1e-4, 0⟩ = .ok r ∧
      r.originShiftShown = some false ∧ ¬ spec_isCentered 1e-4 0 := by
  have hg : ¬ |det ⟨0, 0, 1, 0, 0, 1, 1e-4, 0⟩| < 1e-10 := by
    rw [det_eq]
    norm_num
  have hs : Real.sqrt ((1e-4 : ℝ) ^ 2 + (0 : ℝ) ^ 2) = 1e-4 := by
    have h1 : ((1e-4 : ℝ)) ^ 2 + (0 : ℝ) ^ 2 = (1e-4 : ℝ) ^ 2 := by norm_num
    rw [h1, Real.sqrt_sq (by norm_num : (0 : ℝ) ≤ 1e-4)]
  refine ⟨_, transform_nondeg _ hg, ?_, ?_⟩
  · have := origin_arrow_shown_eq_false 1e-4 0 (by rw [hs]; norm_num)
    simp [this]
  · rw [spec_isCentered, hs]
    norm_num

/-- C4 amended: the script computes no `isCentered` flag; its only
centeredness test is the visualization guard, evaluated only in the
non-degenerate branch, which draws the origin-shift arrow exactly when
`np.linalg.norm(origin) > 0.1`. Origin `(0,0)` and origin `(0.0001,0)`
both fall below that `0.1` threshold and are rendered identically (no
arrow). -/
theorem C4_origin_guard :
    (∀ i : Inputs, ¬ |det i| < 1e-10 → ∃ r, transform i = .ok r ∧
      (r.originShiftShown = some true ↔ 0.1 < Real.sqrt (i.c1 ^ 2 + i.c2 ^ 2))) ∧
    (∃ r, transform ⟨0, 0, 1, 0, 0, 1, 0, 0⟩ = .ok r ∧
      r.originShiftShown = some false) ∧
    (∃ r, transform ⟨0, 0, 1, 0, 0, 1, 1e-4, 0⟩ = .ok r ∧
      r.originShiftShown = some false) := by
  refine ⟨?_, ?_, ?_⟩
  · intro i h
    refine ⟨_, transform_nondeg i h, ?_⟩
    rw [Option.some_inj]
    exact origin_arrow_shown_true_iff i.c1 i.c2
  · have hg : ¬ |det ⟨0, 0, 1, 0, 0, 1, 0, 0⟩| < 1e-10 := by
      rw [det_eq]
      norm_num
    have h0 : origin_arrow_shown 0 0 = false := by
      apply origin_arrow_shown_eq_false
      have : (0 : ℝ) ^ 2 + (0 : ℝ) ^ 2 = 0 := by norm_num
      rw [this, Real.sqrt_zero]
      norm_num
    exact ⟨_, transform_nondeg _ hg, by simp [h0]⟩
  · have hg : ¬ |det ⟨0, 0, 1, 0, 0, 1, 1e-4, 0⟩| < 1e-10 := by
      rw [det_eq]
      norm_num
    have hs : Real.sqrt ((1e-4 : ℝ) ^ 2 + (0 : ℝ) ^ 2) = 1e-4 := by
      have h1 : ((1e-4 : ℝ)) ^ 2 + (0 : ℝ) ^ 2 = (1e-4 : ℝ) ^ 2 := by norm_num
      rw [h1, Real.sqrt_sq (by norm_num : (0 : ℝ) ≤ 1e-4)]
    have h0 : origin_arrow_shown 1e-4 0 = false := by
      apply origin_arrow_shown_eq_false
      rw [hs]
      norm_num
    exact ⟨_, transform_nondeg _ hg, by simp [h0]⟩

/-- C5 counterexample: on the degenerate input with point `(3,2)`, basis
`(2,0)`, `(4,0)` and origin `(1,1)`, the script takes the error branch
before ever assigning `v_relative`, so the result carries no shifted
vector — the claim that it is defined even when degenerate fails. -/
theorem C5_shifted_absent_counterexample :
    ∃ r, transform ⟨3, 2, 2, 0, 4, 0, 1, 1⟩ = .ok r ∧
      r.degenerate = true ∧ r.shifted = none := by
  have h : |det ⟨3, 2, 2, 0, 4, 0, 1, 1⟩| < 1e-10 := by
    rw [det_eq]
    norm_num
  exact ⟨_, transform_deg _ h, rfl, rfl⟩

/-- C5 amended: the shifted vector equals point minus origin offset
component-wise, but it is computed only in the non-degenerate branch; a
degenerate basis yields a result with no shifted vector. -/
theorem C5_shifted_vector_branches :
    (∀ i : Inputs, ¬ |det i| < 1e-10 → ∃ r, transform i = .ok r ∧
      r.shifted = some (i.vx - i.c1, i.vy - i.c2)) ∧
    (∀ i : Inputs, |det i| < 1e-10 → ∃ r, transform i = .ok r ∧
      r.shifted = none) := by
  constructor
  · intro i h
    exact ⟨_, transform_nondeg i h, rfl⟩
  · intro i h
    exact ⟨_, transform_deg i h, rfl⟩

/-- C6 counterexample: at point `(3,2)`, basis `(1,0.5)`, `(-0.5,1)` and
origin `(1,1)` the engine's new coordinates are exactly `(2, 0)`, which is
nowhere near the claimed `(1.8, 0.4)`: both components are off by more
than `1/100`. -/
theorem C6_scenario_A_counterexample :
    ∃ r c, transform ⟨3, 2, 1, 0.5, -0.5, 1, 1, 1⟩ = .ok r ∧
      r.newCoords = some c ∧ c = (2, 0) ∧
      (1 : ℝ) / 100 < |c.1 - 1.8| ∧ (1 : ℝ) / 100 < |c.2 - 0.4| := by
  have hg : ¬ |det ⟨3, 2, 1, 0.5, -0.5, 1, 1, 1⟩| < 1e-10 := by
    rw [det_eq]
    norm_num [abs_of_nonneg]
  have hd : det ⟨3, 2, 1, 0.5, -0.5, 1, 1, 1⟩ = 1.25 := by
    rw [det_eq]
    norm_num
  have hv : v_new_coords ⟨3, 2, 1, 0.5, -0.5, 1, 1, 1⟩ = (2, 0) := by
    rw [v_new_coords, hd, v_relative]
    norm_num
  refine ⟨_, (2, 0), transform_nondeg _ hg, by rw [hv], rfl, by norm_num [abs_of_nonneg],
    by norm_num [abs_of_nonneg]⟩

/-- C6 amended: for point `(3,2)`, basis1 `(1,0.5)`, basis2 `(-0.5,1)`,
origin `(1,1)`: `det = 1.25` (non-degenerate), the shifted vector is
`(2,1)`, and the solve yields new coordinates exactly `(2, 0)`. -/
theorem C6_scenario_A :
    det ⟨3, 2, 1, 0.5, -0.5, 1, 1, 1⟩ = 1.25 ∧
    ∃ r, transform ⟨3, 2, 1, 0.5, -0.5, 1, 1, 1⟩ = .ok r ∧ r.degenerate = false ∧
      r.shifted = some (2, 1) ∧ r.newCoords = some (2, 0) := by
  have hd : det ⟨3, 2, 1, 0.5, -0.5, 1, 1, 1⟩ = 1.25 := by
    rw [det_eq]
    norm_num
  have hg : ¬ |det ⟨3, 2, 1, 0.5, -0.5, 1, 1, 1⟩| < 1e-10 := by
    rw [hd]
    norm_num [abs_of_nonneg]
  have hr : v_relative ⟨3, 2, 1, 0.5, -0.5, 1, 1, 1⟩ = (2, 1) := by
    rw [v_relative]
    norm_num
  have hv : v_new_coords ⟨3, 2, 1, 0.5, -0.5, 1, 1, 1⟩ = (2, 0) := by
    rw [v_new_coords, hd, v_relative]
    norm_num
  exact ⟨hd, _, transform_nondeg _ hg, rfl, by rw [hr], by rw [hv]⟩

/-- C7: for every input the engine's orthogonality flag holds exactly when
`|b1x*b2x + b1y*b2y| < 1e-5`; basis `(1,0)`, `(0,1)` is flagged orthogonal
and basis `(1,1)`, `(1,0)` is not, whatever the point and origin. -/
theorem C7_orthogonality_flag :
    (∀ i : Inputs, ∃ r, transform i = .ok r ∧
      (r.isOrthogonal = true ↔ |i.b1x * i.b2x + i.b1y * i.b2y| < 1e-5)) ∧
    (∀ vx vy c1 c2 : ℝ, ∃ r, transform ⟨vx, vy, 1, 0, 0, 1, c1, c2⟩ = .ok r ∧
      r.isOrthogonal = true) ∧
    (∀ vx vy c1 c2 : ℝ, ∃ r, transform ⟨vx, vy, 1, 1, 1, 0, c1, c2⟩ = .ok r ∧
      r.isOrthogonal = false) := by
  refine ⟨?_, ?_, ?_⟩
  · intro i
    by_cases h : |det i| < 1e-10
    · exact ⟨_, transform_deg i h, is_orthogonal_true_iff _ _ _ _⟩
    · exact ⟨_, transform_nondeg i h, is_orthogonal_true_iff _ _ _ _⟩
  · intro vx vy c1 c2
    have hg : ¬ |det ⟨vx, vy, 1, 0, 0, 1, c1, c2⟩| < 1e-10 := by
      rw [det_eq]
      norm_num
    have ho : is_orthogonal 1 0 0 1 = true := by
      rw [is_orthogonal_true_iff]
      norm_num
    exact ⟨_, transform_nondeg _ hg, ho⟩
  · intro vx vy c1 c2
    have hg : ¬ |det ⟨vx, vy, 1, 1, 1, 0, c1, c2⟩| < 1e-10 := by
      rw [det_eq]
      norm_num
    have ho : is_orthogonal 1 1 1 0 = false := by
      rw [is_orthogonal_false_iff]
      norm_num
    exact ⟨_, transform_nondeg _ hg, ho⟩

/-- C8: no input makes the engine fail: every evaluation returns `.ok`,
and the result is either the degenerate classification or carries new
coordinates — the singular-matrix error of `np.linalg.solve` is
unreachable behind the `|det| < 1e-10` guard. -/
theorem C8_no_exception (i : Inputs) :
    ∃ r, transform i = .ok r ∧
      (r.degenerate = true ∨ ∃ c, r.newCoords = some c) := by
  by_cases h : |det i| < 1e-10
  · exact ⟨_, transform_deg i h, Or.inl rfl⟩
  · exact ⟨_, transform_nondeg i h, Or.inr ⟨_, rfl⟩⟩

/-- C9: a rerun of the script with the same inputs yields the same result
in every field, whatever output the previous evaluation left behind: the
computation reads no state shared between calls. -/
theorem C9_deterministic (p q : Option (Except Unit TransformResult))
    (i j : Inputs) (h : i = j) : rerun p i = rerun q j := by
  rw [rerun, rerun, h]

/-- C9 witness: rerunning on the default inputs, once with no previous
output and once right after a first evaluation, gives identical results. -/
theorem C9_deterministic_witness :
    rerun none ⟨3, 2, 1, 0.5, -0.5, 1, 1, 1⟩ =
      rerun (some (transform ⟨3, 2, 1, 0.5, -0.5, 1, 1, 1⟩))
        ⟨3, 2, 1, 0.5, -0.5, 1, 1, 1⟩ :=
  C9_deterministic none (some (transform ⟨3, 2, 1, 0.5, -0.5, 1, 1, 1⟩))
    ⟨3, 2, 1, 0.5, -0.5, 1, 1, 1⟩ ⟨3, 2, 1, 0.5, -0.5, 1, 1, 1⟩ rfl

/-- C10: the orthogonality test is a function of the four basis scalars
alone, evaluated before the degeneracy branch: the result carries its
value on every input, also on degenerate bases — parallel vectors
`(2,0)`, `(4,0)` (flag false) and zero vectors (flag true) included — and
the flag holds exactly when `|b1x*b2x + b1y*b2y| < 1e-5`. -/
theorem C10_orthogonality_unconditional :
    (∀ i : Inputs, ∃ r, transform i = .ok r ∧
      r.isOrthogonal = is_orthogonal i.b1x i.b1y i.b2x i.b2y) ∧
    (∀ b1x b1y b2x b2y : ℝ,
      (is_orthogonal b1x b1y b2x b2y = true ↔ |b1x * b2x + b1y * b2y| < 1e-5)) ∧
    (∀ vx vy c1 c2 : ℝ, ∃ r, transform ⟨vx, vy, 2, 0, 4, 0, c1, c2⟩ = .ok r ∧
      r.degenerate = true ∧ r.isOrthogonal = false) ∧
    (∀ vx vy c1 c2 : ℝ, ∃ r, transform ⟨vx, vy, 0, 0, 0, 0, c1, c2⟩ = .ok r ∧
      r.degenerate = true ∧ r.isOrthogonal = true) := by
  refine ⟨?_, is_orthogonal_true_iff, ?_, ?_⟩
  · intro i
    by_cases h : |det i| < 1e-10
    · exact ⟨_, transform_deg i h, rfl⟩
    · exact ⟨_, transform_nondeg i h, rfl⟩
  · intro vx vy c1 c2
    have h : |det ⟨vx, vy, 2, 0, 4, 0, c1, c2⟩| < 1e-10 := by
      rw [det_eq]
      norm_num
    have ho : is_orthogonal 2 0 4 0 = false := by
      rw [is_orthogonal_false_iff]
      norm_num
    exact ⟨_, transform_deg _ h, rfl, ho⟩
  · intro vx vy c1 c2
    have h : |det ⟨vx, vy, 0, 0, 0, 0, c1, c2⟩| < 1e-10 := by
      rw [det_eq]
      norm_num
    have ho : is_orthogonal 0 0 0 0 = true := by
      rw [is_orthogonal_true_iff]
      norm_num
    exact ⟨_, transform_deg _ h, rfl, ho⟩

end App
